import Mathlib

/-!
Verification of the dividend eligibility and cut-off-date engine of the FII
portfolio-tracking backend (`app/api/v1/dividends.py` and the data model it
reads).  The Python source is shallowly embedded: dates are triples of
integers with the proleptic-Gregorian validity predicate that `datetime.date`
enforces, `decimal.Decimal` values are coefficient/exponent pairs, database
tables are lists of records, and code that can raise returns `Except`/`Option`.
-/

namespace FiiApp

/-- Gregorian leap-year test, as implemented by Python's `calendar`/`datetime`
(year divisible by 4, except centuries not divisible by 400). -/
def isLeapYear (y : Int) : Bool :=
  y % 4 == 0 && (y % 100 != 0 || y % 400 == 0)

/-- Number of days of month `m` of year `y` in the proleptic Gregorian
calendar used by `datetime.date`.  Months outside `1..12` are given length 0
so that no date with such a month is valid. -/
def daysInMonth (y m : Int) : Int :=
  if m = 2 then (if isLeapYear y then 29 else 28)
  else if m = 4 ∨ m = 6 ∨ m = 9 ∨ m = 11 then 30
  else if 1 ≤ m ∧ m ≤ 12 then 31
  else 0

/-- A calendar date, mirroring Python's `datetime.date` field by field. -/
structure PyDate where
  year : Int
  month : Int
  day : Int
deriving DecidableEq, Repr

/-- Validity of a date under `datetime.date.__new__`: Python restricts years
to `MINYEAR = 1 .. MAXYEAR = 9999`, months to `1..12` and days to the length
of the month, raising `ValueError`/`OverflowError` otherwise. -/
def validDate (d : PyDate) : Prop :=
  1 ≤ d.year ∧ d.year ≤ 9999 ∧ 1 ≤ d.month ∧ d.month ≤ 12 ∧
    1 ≤ d.day ∧ d.day ≤ daysInMonth d.year d.month

instance (d : PyDate) : Decidable (validDate d) := by
  unfold validDate; infer_instance

/-- The `date(year, month, day)` constructor: `some` on a valid date, `none`
where Python raises. -/
def mkDate (y m d : Int) : Option PyDate :=
  if validDate ⟨y, m, d⟩ then some ⟨y, m, d⟩ else none

/-- The previous calendar day, i.e. `d - timedelta(days=1)` of Python's
`datetime` (at day granularity) for valid dates. -/
def predDay (d : PyDate) : PyDate :=
  if 1 < d.day then ⟨d.year, d.month, d.day - 1⟩
  else if 1 < d.month then ⟨d.year, d.month - 1, daysInMonth d.year (d.month - 1)⟩
  else ⟨d.year - 1, 12, 31⟩

/-- The next calendar day, i.e. `d + timedelta(days=1)` of Python's
`datetime` (at day granularity) for valid dates. -/
def succDay (d : PyDate) : PyDate :=
  if d.day < daysInMonth d.year d.month then ⟨d.year, d.month, d.day + 1⟩
  else if d.month < 12 then ⟨d.year, d.month + 1, 1⟩
  else ⟨d.year + 1, 1, 1⟩

/-- Comparison `a <= b` on `datetime.date`, which orders dates
lexicographically by (year, month, day). -/
def dateLe (a b : PyDate) : Bool :=
  decide (a.year < b.year ∨ (a.year = b.year ∧
    (a.month < b.month ∨ (a.month = b.month ∧ a.day ≤ b.day))))

/-- Embedding of `_calculate_cut_date` (`app/api/v1/dividends.py`): compute
the first of the month after `payment_date`, step one day back to obtain the
last day of the payment month, clamp `cut_day` to it and build the result
date.  `none` models the `ValueError`/`OverflowError` branches of the Python
`date` constructor. -/
def calculate_cut_date (payment_date : PyDate) (cut_day : Int) : Option PyDate :=
  let year := payment_date.year
  let month := payment_date.month
  match (if month = 12 then mkDate (year + 1) 1 1 else mkDate year (month + 1) 1) with
  | none => none
  | some next_month =>
      let last_day_of_month := (predDay next_month).day
      let actual_day := min cut_day last_day_of_month
      mkDate year month actual_day

/-- A row of the `fii_transaction` table (`FiiTransaction` model).  The
price columns and the server-managed audit columns are never read by the
functions modelled here and are omitted. -/
structure FiiTransaction where
  user_pk : Int
  fii_pk : Int
  transaction_type : String
  transaction_date : PyDate
  quantity : Int
  rm_timestamp : Option Int
deriving DecidableEq, Repr

/-- Embedding of `_calculate_units_held` (`app/api/v1/dividends.py`): the two
filtered queries over `fii_transaction` become filters over the table's rows,
then quantities are summed and the difference is clamped at zero. -/
def calculate_units_held (transactions : List FiiTransaction)
    (user_pk fii_pk : Int) (cut_date : PyDate) : Int :=
  let buy_transactions := transactions.filter (fun t =>
    t.user_pk == user_pk && t.fii_pk == fii_pk &&
      t.transaction_type == "buy" && dateLe t.transaction_date cut_date &&
      t.rm_timestamp.isNone)
  let sell_transactions := transactions.filter (fun t =>
    t.user_pk == user_pk && t.fii_pk == fii_pk &&
      t.transaction_type == "sell" && dateLe t.transaction_date cut_date &&
      t.rm_timestamp.isNone)
  let total_bought := (buy_transactions.map (fun t => t.quantity)).sum
  let total_sold := (sell_transactions.map (fun t => t.quantity)).sum
  max 0 (total_bought - total_sold)

/-- A `decimal.Decimal` value as a coefficient/exponent pair
(value = `coeff * 10 ^ exp`).  Arithmetic below models Python's exact
decimal arithmetic, which is what the default context performs on the
operand sizes occurring here (well within its 28-digit precision). -/
structure PyDec where
  coeff : Int
  exp : Int
deriving DecidableEq, Repr

/-- Rational value of a decimal. -/
def decValue (a : PyDec) : ℚ :=
  (a.coeff : ℚ) * (10 : ℚ) ^ a.exp

/-- Python `Decimal('0')`. -/
def decZero : PyDec := ⟨0, 0⟩

/-- Multiplication `Decimal * int`: the `int` is coerced to a decimal with
exponent 0, coefficients multiply and exponents add. -/
def decMulInt (a : PyDec) (n : Int) : PyDec :=
  ⟨a.coeff * n, a.exp⟩

/-- Addition of two decimals: operands are aligned to the smaller exponent
and coefficients added, which is the ideal exponent `min` rule of
`Decimal.__add__`. -/
def decAdd (a b : PyDec) : PyDec :=
  let e := min a.exp b.exp
  ⟨a.coeff * 10 ^ (a.exp - e).toNat + b.coeff * 10 ^ (b.exp - e).toNat, e⟩

/-- A row of the `fii` table (`Fii` model).  `cut_day` is the nullable
`Integer` column; the unused `sector` and audit columns are omitted. -/
structure Fii where
  pk : Int
  tag : String
  name : String
  cut_day : Option Int
  rm_timestamp : Option Int
deriving DecidableEq, Repr

/-- A row of the `dividend` table (`Dividend` model).  `amount_per_unit` is
`Numeric(10, 4)`, so values read from the column carry exponent `-4`.
The audit user columns are kept because `update_dividend` writes them;
the trigger-managed timestamps are omitted. -/
structure Dividend where
  pk : Int
  user_pk : Int
  fii_pk : Int
  payment_date : PyDate
  reference_date : Option PyDate
  com_date : Option PyDate
  amount_per_unit : PyDec
  rm_timestamp : Option Int
  created_by_pk : Option Int
  updated_by_pk : Option Int
deriving DecidableEq, Repr

/-- The point-in-time database contents read by one request. -/
structure DbState where
  transactions : List FiiTransaction
  dividends : List Dividend
  fiis : List Fii
deriving Repr

/-- Ordering of joined (dividend, fii) rows by the instrument tag,
mirroring `ORDER BY fii.tag`. -/
def pairTagLe (a b : Dividend × Fii) : Prop :=
  a.2.tag ≤ b.2.tag

instance : DecidableRel pairTagLe := fun a b =>
  inferInstanceAs (Decidable (a.2.tag ≤ b.2.tag))

instance : IsTotal (Dividend × Fii) pairTagLe :=
  ⟨fun a b => le_total a.2.tag b.2.tag⟩

instance : IsTrans (Dividend × Fii) pairTagLe :=
  ⟨fun _ _ _ hab hbc => le_trans hab hbc⟩

/-- The monthly-summary query of `get_monthly_summary`: join `dividend` with
`fii` on `fii_pk = pk` (`pk` is the primary key, so at most one row
matches), keep the caller's non-deleted dividends of non-deleted FIIs whose
payment date falls in `(year, month)`, ordered by instrument tag. -/
def dividendsForMonth (db : DbState) (user_pk : Int)
    (year month : Int) : List (Dividend × Fii) :=
  let joined := db.dividends.filterMap (fun d =>
    match db.fiis.find? (fun f => f.pk == d.fii_pk) with
    | some f =>
        if d.user_pk == user_pk && d.rm_timestamp.isNone && f.rm_timestamp.isNone
            && d.payment_date.year == year && d.payment_date.month == month
        then some (d, f) else none
    | none => none)
  List.insertionSort pairTagLe joined

/-- The `DividendDetail` response schema (`app/schemas/dividend.py`). -/
structure DividendDetail where
  dividend_pk : Int
  payment_date : PyDate
  amount_per_unit : PyDec
  com_date : Option PyDate
  units_held : Int
  total_amount : PyDec
deriving DecidableEq, Repr

/-- Construction of a `DividendDetail` through Pydantic v2 validation.  The
schema annotates `com_date : Optional[date]` with no default, which under
Pydantic v2 makes it a required field (`Optional` only widens the type); a
call that does not supply the `com_date` argument therefore raises a
`ValidationError`.  The outer `Option` of `com_date` records whether the
argument was supplied at all. -/
def dividendDetail_validate (dividend_pk : Int) (payment_date : PyDate)
    (amount_per_unit : PyDec) (com_date : Option (Option PyDate))
    (units_held : Int) (total_amount : PyDec) : Except String DividendDetail :=
  match com_date with
  | none => .error "ValidationError: com_date Field required"
  | some c =>
      .ok ⟨dividend_pk, payment_date, amount_per_unit, c, units_held, total_amount⟩

/-- The `FiiMonthlySummary` response schema, which is also the shape of the
per-FII accumulator dictionary built by the summary loop. -/
structure FiiMonthlySummary where
  fii_pk : Int
  fii_tag : String
  fii_name : String
  dividends : List DividendDetail
  total_amount : PyDec
  dividend_count : Int
deriving DecidableEq, Repr

/-- The `MonthlySummaryResponse` schema. -/
structure MonthlySummaryResponse where
  year : Int
  month : Int
  fiis : List FiiMonthlySummary
  total : PyDec
deriving DecidableEq, Repr

/-- Replace the entry of `key` in the insertion-ordered association list
that models the Python dict `fii_summary`. -/
def summaryModify (s : List (Int × FiiMonthlySummary)) (key : Int)
    (g : FiiMonthlySummary → FiiMonthlySummary) : List (Int × FiiMonthlySummary) :=
  s.map (fun p => if p.1 == key then (p.1, g p.2) else p)

/-- One iteration of the `for dividend, fii in dividends` loop of
`get_monthly_summary`: compute `units_held` (the `if fii.cut_day:` truthiness
test is false for `None` and for `0`), compute the line total, create the
FII bucket on first sight (Python dicts preserve insertion order), construct
the `DividendDetail` — the call site passes no `com_date` — and accumulate.
Errors of the date constructor and of Pydantic validation abort the
request. -/
def summaryStep (transactions : List FiiTransaction) (user_pk : Int)
    (s : List (Int × FiiMonthlySummary)) (pair : Dividend × Fii) :
    Except String (List (Int × FiiMonthlySummary)) := do
  let dividend := pair.1
  let fii := pair.2
  let units_held ←
    match fii.cut_day with
    | some cd =>
        if cd ≠ 0 then
          match calculate_cut_date dividend.payment_date cd with
          | some cut_date =>
              Except.ok (calculate_units_held transactions user_pk dividend.fii_pk cut_date)
          | none => Except.error "ValueError: date out of range"
        else Except.ok 0
    | none => Except.ok 0
  let dividend_total := decMulInt dividend.amount_per_unit units_held
  let s1 := if (s.find? (fun p => p.1 == fii.pk)).isSome then s
    else s ++ [(fii.pk, ⟨fii.pk, fii.tag, fii.name, [], decZero, 0⟩)]
  let detail ← dividendDetail_validate dividend.pk dividend.payment_date
    dividend.amount_per_unit none units_held dividend_total
  .ok (summaryModify s1 fii.pk (fun e =>
    { e with
      dividends := e.dividends ++ [detail],
      total_amount := decAdd e.total_amount dividend_total,
      dividend_count := e.dividend_count + 1 }))

/-- Embedding of the `get_monthly_summary` handler: run the query, fold the
aggregation loop over it, then assemble the response with the grand total
`sum((fii.total_amount for fii in fiis), Decimal('0'))`. -/
def get_monthly_summary (db : DbState) (user_pk : Int)
    (year month : Int) : Except String MonthlySummaryResponse := do
  let dividends := dividendsForMonth db user_pk year month
  let fii_summary ← dividends.foldlM (summaryStep db.transactions user_pk) []
  let fiis := fii_summary.map (fun p => p.2)
  let total := (fiis.map (fun f => f.total_amount)).foldl decAdd decZero
  .ok ⟨year, month, fiis, total⟩

/-- List of FII buckets of a summary outcome (empty when the request
errored); lets ordering statements avoid binders over the response. -/
def respFiis (r : Except String MonthlySummaryResponse) : List FiiMonthlySummary :=
  match r with
  | .ok resp => resp.fiis
  | .error _ => []

/-- The `DividendUpdate` request schema: every field optional, PATCH
semantics.  The outer `Option` is Pydantic's set/unset distinction
(`model_dump(exclude_unset=True)` only emits set fields); the inner one is
an explicit JSON `null`. -/
structure DividendUpdate where
  fii_pk : Option (Option Int)
  payment_date : Option (Option PyDate)
  amount_per_unit : Option (Option PyDec)
  com_date : Option (Option PyDate)
deriving DecidableEq, Repr

/-- PATCH merge for one field: a set field (even set to `null`) wins over
the stored value. -/
def mergeField {α : Type} (s : Option (Option α)) (stored : α) : Option α :=
  match s with
  | some v => v
  | none => some stored

/-- PATCH merge for a nullable column: a set field wins over the stored
value, which may itself be `null`. -/
def mergeNullable {α : Type} (s : Option (Option α)) (stored : Option α) : Option α :=
  match s with
  | some v => v
  | none => stored

/-- Re-validation `DividendUpdate(**update_dict)` performed by the handler
after it injected the computed `units_held` into the dict: the declared
fields are checked again (`gt=0` on `fii_pk` and `amount_per_unit`, skipped
for `None`), while the `units_held` key matches no declared field and, under
Pydantic v2's default `extra='ignore'`, is silently dropped — the returned
schema carries no trace of it.  A positive `Decimal` is one with a positive
coefficient, since `10 ^ exp > 0`. -/
def dividendUpdate_revalidate (p : DividendUpdate) (units_held : Option Int) :
    Except String DividendUpdate :=
  let badFiiPk : Bool := match p.fii_pk with
    | some (some v) => decide (v ≤ 0)
    | _ => false
  let badAmount : Bool := match p.amount_per_unit with
    | some (some a) => decide (a.coeff ≤ 0)
    | _ => false
  if badFiiPk then .error "ValidationError: fii_pk must be greater than 0"
  else if badAmount then .error "ValidationError: amount_per_unit must be greater than 0"
  else .ok p

/-- Lookup that raises (`404`) when nothing is found, the
`if not x: raise HTTPException(404, ...)` pattern of the handlers. -/
def orError {α : Type} (o : Option α) (msg : String) : Except String α :=
  match o with
  | some a => .ok a
  | none => .error msg

/-- The flush-time NOT NULL check of the `payment_date` and
`amount_per_unit` columns: assigning `None` to either raises an
`IntegrityError` when the repository flushes. -/
def flushNotNull (pd : Option PyDate) (am : Option PyDec) :
    Except String (PyDate × PyDec) :=
  match pd, am with
  | some pd, some am => .ok (pd, am)
  | _, _ => .error "IntegrityError: null value in non-nullable column"

/-- The `units_held` recomputation block of `update_dividend`: when the
target FII has a truthy `cut_day`, resolve the cut date from the effective
payment date and count the eligible units; otherwise the handler leaves the
update dict untouched (`none`).  Errors model `_calculate_cut_date` being
fed a `None` payment date or raising on the `MAXYEAR` boundary. -/
def unitsEntryFor (transactions : List FiiTransaction) (current_user_pk : Int)
    (fii : Fii) (payment_date_for_calc : Option PyDate) (fpk : Int) :
    Except String (Option Int) :=
  match fii.cut_day with
  | some cd =>
      if cd ≠ 0 then
        match payment_date_for_calc with
        | none => .error "TypeError: payment_date is None"
        | some pd =>
            match calculate_cut_date pd cd with
            | some cut_date =>
                .ok (some (calculate_units_held transactions current_user_pk fpk cut_date))
            | none => .error "ValueError: date out of range"
      else .ok none
  | none => .ok none

/-- Embedding of the `update_dividend` handler: find the caller's
non-deleted dividend, merge the set fields over the stored values to pick
the values used for recalculation, look up the target FII (a `fii_pk` set to
`null` makes `get_by_pk(None)` find nothing, hence 404), recompute
`units_held` when the FII has a truthy `cut_day`, push it into the update
dict, re-validate the dict as a `DividendUpdate` (which drops the
`units_held` key), and apply the surviving fields with
`BaseRepository.update`'s `setattr` loop plus the audit column.  Assigning
`null` to the non-nullable `payment_date`/`amount_per_unit` columns models
the `IntegrityError` the flush would raise. -/
def update_dividend (db : DbState) (current_user_pk : Int) (pk : Int)
    (dividend_data : DividendUpdate) : Except String Dividend := do
  let dividend ← orError (db.dividends.find? (fun d =>
    d.pk == pk && d.user_pk == current_user_pk && d.rm_timestamp.isNone))
    "404: Dividend not found"
  let payment_date_for_calc := mergeField dividend_data.payment_date dividend.payment_date
  let fpk ← orError (mergeField dividend_data.fii_pk dividend.fii_pk) "404: FII not found"
  let fii ← orError (db.fiis.find? (fun f => f.pk == fpk && f.rm_timestamp.isNone))
    "404: FII not found"
  let units_held ← unitsEntryFor db.transactions current_user_pk fii
    payment_date_for_calc fpk
  let validated ← dividendUpdate_revalidate dividend_data units_held
  let vals ← flushNotNull (mergeField validated.payment_date dividend.payment_date)
    (mergeField validated.amount_per_unit dividend.amount_per_unit)
  .ok { dividend with
    fii_pk := fpk,
    payment_date := vals.1,
    amount_per_unit := vals.2,
    com_date := mergeNullable validated.com_date dividend.com_date,
    updated_by_pk := some current_user_pk }

theorem dateLe_refl (d : PyDate) : dateLe d d = true := by
  simp [dateLe]

theorem dateLe_trans {a b c : PyDate} (hab : dateLe a b = true)
    (hbc : dateLe b c = true) : dateLe a c = true := by
  simp only [dateLe, decide_eq_true_eq] at *
  omega

theorem dateLe_succDay (d : PyDate) : dateLe (succDay d) d = false := by
  simp only [dateLe, succDay]
  split_ifs <;> (simp only [decide_eq_false_iff_not]; omega)

theorem sum_map_filter_eq {α : Type} (l : List α) (p : α → Bool) (g : α → Int) :
    ((l.filter p).map g).sum = (l.map (fun t => if p t then g t else 0)).sum := by
  induction l with
  | nil => rfl
  | cons a l ih =>
      by_cases h : p a <;> simp [List.filter_cons, h, ih]

/-- C2: `units_held_at` returns `max(0, B - S)` where `B` and `S` are the
sums of quantities of the owner's non-deleted buy resp. sell transactions
for the FII dated on or before the cutoff; the result is never negative,
and an empty transaction history yields 0 rather than an error. -/
theorem c2_units_held_max_formula (transactions : List FiiTransaction)
    (user_pk fii_pk : Int) (cut_date : PyDate) :
    calculate_units_held transactions user_pk fii_pk cut_date =
      max 0
        ((transactions.map (fun t =>
          if t.user_pk == user_pk && t.fii_pk == fii_pk &&
              t.transaction_type == "buy" && dateLe t.transaction_date cut_date &&
              t.rm_timestamp.isNone then t.quantity else 0)).sum -
         (transactions.map (fun t =>
          if t.user_pk == user_pk && t.fii_pk == fii_pk &&
              t.transaction_type == "sell" && dateLe t.transaction_date cut_date &&
              t.rm_timestamp.isNone then t.quantity else 0)).sum) ∧
    0 ≤ calculate_units_held transactions user_pk fii_pk cut_date ∧
    calculate_units_held [] user_pk fii_pk cut_date = 0 := by
  refine ⟨?_, ?_, rfl⟩
  · simp only [calculate_units_held]
    rw [sum_map_filter_eq, sum_map_filter_eq]
  · exact le_max_left 0 _

/-- C5: a non-deleted buy dated exactly on the cutoff date is counted by
`units_held_at`; one dated the day after is not; and a buy/sell pair of the
same quantity both dated on the cutoff contributes net zero units. -/
theorem c5_cutoff_boundary (transactions : List FiiTransaction)
    (user_pk fii_pk : Int) (cut_date : PyDate) (q : Int) :
    calculate_units_held
        (⟨user_pk, fii_pk, "buy", cut_date, q, none⟩ :: transactions)
        user_pk fii_pk cut_date =
      max 0
        ((q + ((transactions.filter (fun t =>
          t.user_pk == user_pk && t.fii_pk == fii_pk &&
            t.transaction_type == "buy" && dateLe t.transaction_date cut_date &&
            t.rm_timestamp.isNone)).map (fun t => t.quantity)).sum) -
         ((transactions.filter (fun t =>
          t.user_pk == user_pk && t.fii_pk == fii_pk &&
            t.transaction_type == "sell" && dateLe t.transaction_date cut_date &&
            t.rm_timestamp.isNone)).map (fun t => t.quantity)).sum) ∧
    calculate_units_held
        (⟨user_pk, fii_pk, "buy", succDay cut_date, q, none⟩ :: transactions)
        user_pk fii_pk cut_date =
      calculate_units_held transactions user_pk fii_pk cut_date ∧
    calculate_units_held
        (⟨user_pk, fii_pk, "buy", cut_date, q, none⟩ ::
          ⟨user_pk, fii_pk, "sell", cut_date, q, none⟩ :: transactions)
        user_pk fii_pk cut_date =
      calculate_units_held transactions user_pk fii_pk cut_date := by
  refine ⟨?_, ?_, ?_⟩
  · simp [calculate_units_held, List.filter_cons, dateLe_refl]
  · simp [calculate_units_held, List.filter_cons, dateLe_succDay]
  · simp only [calculate_units_held, List.filter_cons, dateLe_refl]
    simp

/-- C7: with only buy transactions (and the positive quantities the table's
check constraint guarantees), `units_held_at` is monotone in the cutoff. -/
theorem c7_units_held_monotone (transactions : List FiiTransaction)
    (user_pk fii_pk : Int) (d1 d2 : PyDate)
    (honly : ∀ t ∈ transactions, t.user_pk = user_pk → t.fii_pk = fii_pk →
      t.rm_timestamp = none → t.transaction_type = "buy")
    (hq : ∀ t ∈ transactions, 0 ≤ t.quantity)
    (hle : dateLe d1 d2 = true) :
    calculate_units_held transactions user_pk fii_pk d1 ≤
      calculate_units_held transactions user_pk fii_pk d2 := by
  have hsell : ∀ d : PyDate, (transactions.filter (fun t =>
      t.user_pk == user_pk && t.fii_pk == fii_pk &&
        t.transaction_type == "sell" && dateLe t.transaction_date d &&
        t.rm_timestamp.isNone)) = [] := by
    intro d
    rw [List.filter_eq_nil_iff]
    intro t ht hcontra
    simp only [Bool.and_eq_true, beq_iff_eq, Option.isNone_iff_eq_none] at hcontra
    obtain ⟨⟨⟨⟨hu, hf⟩, hty⟩, _⟩, hrm⟩ := hcontra
    have := honly t ht hu hf hrm
    rw [this] at hty
    exact absurd hty (by decide)
  have hbuy : ((transactions.filter (fun t =>
        t.user_pk == user_pk && t.fii_pk == fii_pk &&
          t.transaction_type == "buy" && dateLe t.transaction_date d1 &&
          t.rm_timestamp.isNone)).map (fun t => t.quantity)).sum ≤
      ((transactions.filter (fun t =>
        t.user_pk == user_pk && t.fii_pk == fii_pk &&
          t.transaction_type == "buy" && dateLe t.transaction_date d2 &&
          t.rm_timestamp.isNone)).map (fun t => t.quantity)).sum := by
    rw [sum_map_filter_eq, sum_map_filter_eq]
    apply List.sum_le_sum
    intro t ht
    by_cases h1 : (t.user_pk == user_pk && t.fii_pk == fii_pk &&
        t.transaction_type == "buy" && dateLe t.transaction_date d1 &&
        t.rm_timestamp.isNone) = true
    · have h2 : (t.user_pk == user_pk && t.fii_pk == fii_pk &&
          t.transaction_type == "buy" && dateLe t.transaction_date d2 &&
          t.rm_timestamp.isNone) = true := by
        simp only [Bool.and_eq_true] at h1 ⊢
        exact ⟨⟨h1.1.1, dateLe_trans h1.1.2 hle⟩, h1.2⟩
      rw [if_pos h1, if_pos h2]
    · rw [if_neg h1]
      by_cases h2 : (t.user_pk == user_pk && t.fii_pk == fii_pk &&
          t.transaction_type == "buy" && dateLe t.transaction_date d2 &&
          t.rm_timestamp.isNone) = true
      · rw [if_pos h2]; exact hq t ht
      · rw [if_neg h2]
  simp only [calculate_units_held, hsell d1, hsell d2, List.map_nil, List.sum_nil]
  omega

/-- Witness for `c7_units_held_monotone` at a concrete two-buy history. -/
theorem c7_units_held_monotone_witness :
    calculate_units_held
        [⟨1, 1, "buy", ⟨2024, 1, 10⟩, 100, none⟩,
         ⟨1, 1, "buy", ⟨2024, 3, 5⟩, 50, none⟩] 1 1 ⟨2024, 1, 31⟩ ≤
      calculate_units_held
        [⟨1, 1, "buy", ⟨2024, 1, 10⟩, 100, none⟩,
         ⟨1, 1, "buy", ⟨2024, 3, 5⟩, 50, none⟩] 1 1 ⟨2024, 3, 31⟩ :=
  c7_units_held_monotone _ 1 1 ⟨2024, 1, 31⟩ ⟨2024, 3, 31⟩
    (by decide) (by decide) (by decide)

theorem daysInMonth_pos (y m : Int) (h1 : 1 ≤ m) (h2 : m ≤ 12) :
    1 ≤ daysInMonth y m := by
  unfold daysInMonth
  split_ifs <;> omega

theorem daysInMonth_jan (y : Int) : daysInMonth y 1 = 31 := by
  norm_num [daysInMonth]

theorem daysInMonth_dec (y : Int) : daysInMonth y 12 = 31 := by
  norm_num [daysInMonth]

/-- C3 counterexample: `date(9999, 12, 25)` is a perfectly valid payment
date, but `_calculate_cut_date` builds `date(10000, 1, 1)` for it, which
exceeds `datetime.MAXYEAR` and raises — contradicting the claim that the
function never raises for any payment date. -/
theorem c3_counterexample :
    validDate ⟨9999, 12, 25⟩ ∧ calculate_cut_date ⟨9999, 12, 25⟩ 15 = none :=
  ⟨by decide, by decide⟩

/-- C3 as amended: for every valid payment date outside December 9999 and
every `cut_day` in 1..31, the function raises no error and returns the date
of the payment month whose day is `min cut_day (days in that month)`; in
particular `cut_day = 31` in February yields the 28th or, in a leap year,
the 29th, and the December boundary rolls into the next January. -/
theorem c3_cut_date_amended (pd : PyDate) (cut_day : Int)
    (hv : validDate pd) (hc1 : 1 ≤ cut_day) (hc2 : cut_day ≤ 31)
    (hdec : ¬(pd.year = 9999 ∧ pd.month = 12)) :
    calculate_cut_date pd cut_day =
      some ⟨pd.year, pd.month, min cut_day (daysInMonth pd.year pd.month)⟩ ∧
    calculate_cut_date ⟨2023, 2, 10⟩ 31 = some ⟨2023, 2, 28⟩ ∧
    calculate_cut_date ⟨2024, 2, 10⟩ 31 = some ⟨2024, 2, 29⟩ ∧
    calculate_cut_date ⟨2023, 12, 25⟩ 31 = some ⟨2023, 12, 31⟩ ∧
    calculate_cut_date ⟨2024, 4, 10⟩ 15 = some ⟨2024, 4, 15⟩ := by
  refine ⟨?_, by decide, by decide, by decide, by decide⟩
  obtain ⟨hy1, hy2, hm1, hm2, hd1, hd2⟩ := hv
  simp only [calculate_cut_date]
  by_cases hm : pd.month = 12
  · have hy3 : pd.year ≤ 9998 := by
      have : pd.year ≠ 9999 := fun h => hdec ⟨h, hm⟩
      omega
    rw [if_pos hm]
    rw [mkDate, if_pos (by simp only [validDate, daysInMonth_jan]; omega)]
    have hpred : predDay ⟨pd.year + 1, 1, 1⟩ = ⟨pd.year, 12, 31⟩ := by
      unfold predDay
      norm_num
    simp only [hpred]
    rw [mkDate, if_pos (by simp only [validDate, hm, daysInMonth_dec]; omega)]
    rw [hm, daysInMonth_dec]
  · have hm3 : pd.month ≤ 11 := by omega
    have hdim2 : 1 ≤ daysInMonth pd.year (pd.month + 1) :=
      daysInMonth_pos pd.year (pd.month + 1) (by omega) (by omega)
    rw [if_neg hm]
    rw [mkDate, if_pos (by simp only [validDate]; omega)]
    have hpred : predDay ⟨pd.year, pd.month + 1, 1⟩ =
        ⟨pd.year, pd.month, daysInMonth pd.year pd.month⟩ := by
      unfold predDay
      simp only [if_neg (by omega : ¬(1 : Int) < 1), if_pos (by omega : (1 : Int) < pd.month + 1)]
      norm_num
    simp only [hpred]
    have hdim1 : 1 ≤ daysInMonth pd.year pd.month := daysInMonth_pos _ _ hm1 hm2
    rw [mkDate, if_pos (by simp only [validDate]; omega)]

/-- Witness for `c3_cut_date_amended`: leap-year February with a cut day
beyond the month's end. -/
theorem c3_cut_date_amended_witness :
    calculate_cut_date ⟨2024, 2, 10⟩ 31 =
      some ⟨2024, 2, min 31 (daysInMonth 2024 2)⟩ ∧
    calculate_cut_date ⟨2023, 2, 10⟩ 31 = some ⟨2023, 2, 28⟩ ∧
    calculate_cut_date ⟨2024, 2, 10⟩ 31 = some ⟨2024, 2, 29⟩ ∧
    calculate_cut_date ⟨2023, 12, 25⟩ 31 = some ⟨2023, 12, 31⟩ ∧
    calculate_cut_date ⟨2024, 4, 10⟩ 15 = some ⟨2024, 4, 15⟩ :=
  c3_cut_date_amended ⟨2024, 2, 10⟩ 31 (by decide) (by decide) (by decide)
    (by decide)

theorem summaryStep_error (transactions : List FiiTransaction) (user_pk : Int)
    (s : List (Int × FiiMonthlySummary)) (pair : Dividend × Fii) :
    ∃ e, summaryStep transactions user_pk s pair = .error e := by
  obtain ⟨dividend, fii⟩ := pair
  obtain ⟨fpk, tag, fname, cd, rm⟩ := fii
  rcases cd with _ | cd
  · exact ⟨"ValidationError: com_date Field required", rfl⟩
  · by_cases hcd : cd = 0
    · subst hcd
      exact ⟨"ValidationError: com_date Field required", rfl⟩
    · simp only [summaryStep, if_pos hcd]
      rcases hcut : calculate_cut_date dividend.payment_date cd with _ | cut
      · exact ⟨"ValueError: date out of range", rfl⟩
      · exact ⟨"ValidationError: com_date Field required", rfl⟩

theorem foldlM_summaryStep_cons (transactions : List FiiTransaction) (user_pk : Int)
    (s : List (Int × FiiMonthlySummary)) (p : Dividend × Fii) (rest : List (Dividend × Fii)) :
    ∃ e, (p :: rest).foldlM (summaryStep transactions user_pk) s = Except.error e := by
  obtain ⟨e, he⟩ := summaryStep_error transactions user_pk s p
  exact ⟨e, by rw [List.foldlM_cons, he]; rfl⟩

theorem gms_of_nil {db : DbState} {user_pk year month : Int}
    (h : dividendsForMonth db user_pk year month = []) :
    get_monthly_summary db user_pk year month = .ok ⟨year, month, [], decZero⟩ := by
  simp only [get_monthly_summary, h]
  rfl

theorem gms_of_cons {db : DbState} {user_pk year month : Int}
    {p : Dividend × Fii} {rest : List (Dividend × Fii)}
    (h : dividendsForMonth db user_pk year month = p :: rest) :
    ∃ e, get_monthly_summary db user_pk year month = .error e := by
  obtain ⟨e, he⟩ := foldlM_summaryStep_cons db.transactions user_pk [] p rest
  exact ⟨e, by simp only [get_monthly_summary, h, he]; rfl⟩

/-- C4: because the `DividendDetail` construction inside the summary loop
supplies no `com_date` — a field the schema makes required — the endpoint
returns successfully exactly for months whose dividend query is empty;
every invocation that finds a dividend raises instead of returning the
aggregated summary. -/
theorem c4_summary_ok_iff_empty (db : DbState) (user_pk year month : Int) :
    (∃ resp, get_monthly_summary db user_pk year month = .ok resp) ↔
      dividendsForMonth db user_pk year month = [] := by
  cases h : dividendsForMonth db user_pk year month with
  | nil => exact ⟨fun _ => rfl, fun _ => ⟨_, gms_of_nil h⟩⟩
  | cons p rest =>
      obtain ⟨e, he⟩ := gms_of_cons h
      constructor
      · rintro ⟨resp, hok⟩
        rw [he] at hok
        cases hok
      · intro habs
        cases habs

/-- C6: a month with no matching non-deleted dividend records yields the
empty summary with total `Decimal('0')` and no error. -/
theorem c6_empty_month (db : DbState) (user_pk year month : Int)
    (hempty : ∀ d ∈ db.dividends, d.user_pk = user_pk → d.rm_timestamp = none →
      ¬(d.payment_date.year = year ∧ d.payment_date.month = month)) :
    get_monthly_summary db user_pk year month = .ok ⟨year, month, [], decZero⟩ ∧
      decValue decZero = 0 := by
  refine ⟨gms_of_nil ?_, by simp [decValue, decZero]⟩
  simp only [dividendsForMonth]
  have hjoin : db.dividends.filterMap (fun d =>
      match db.fiis.find? (fun f => f.pk == d.fii_pk) with
      | some f =>
          if d.user_pk == user_pk && d.rm_timestamp.isNone && f.rm_timestamp.isNone
              && d.payment_date.year == year && d.payment_date.month == month
          then some (d, f) else none
      | none => none) = [] := by
    rw [List.filterMap_eq_nil_iff]
    intro d hd
    cases hfind : db.fiis.find? (fun f => f.pk == d.fii_pk) with
    | none => simp
    | some f =>
        simp only [hfind]
        rw [if_neg]
        intro hcond
        simp only [Bool.and_eq_true, beq_iff_eq, Option.isNone_iff_eq_none] at hcond
        exact hempty d hd hcond.1.1.1.1 hcond.1.1.1.2 ⟨hcond.1.2, hcond.2⟩
  rw [hjoin]
  rfl

/-- Witness for `c6_empty_month`: the empty database. -/
theorem c6_empty_month_witness :
    get_monthly_summary ⟨[], [], []⟩ 1 2024 1 = .ok ⟨2024, 1, [], decZero⟩ ∧
      decValue decZero = 0 :=
  c6_empty_month ⟨[], [], []⟩ 1 2024 1 (fun d hd => absurd hd (List.not_mem_nil d))

/-- C9: the summary is a function of the point-in-time data alone (repeated
calls over unchanged transaction, dividend and FII data give identical
results), the handler iterates the joined dividend rows in ascending
instrument-tag order, and the buckets of any successful response are in
ascending tag order as well. -/
theorem c9_deterministic_ordering (db db2 : DbState) (user_pk year month : Int)
    (ht : db2.transactions = db.transactions) (hd : db2.dividends = db.dividends)
    (hf : db2.fiis = db.fiis) :
    get_monthly_summary db2 user_pk year month =
      get_monthly_summary db user_pk year month ∧
    List.Sorted pairTagLe (dividendsForMonth db user_pk year month) ∧
    List.Sorted (fun a b : FiiMonthlySummary => a.fii_tag ≤ b.fii_tag)
      (respFiis (get_monthly_summary db user_pk year month)) := by
  refine ⟨?_, ?_, ?_⟩
  · obtain ⟨t1, d1, f1⟩ := db
    obtain ⟨t2, d2, f2⟩ := db2
    simp only at ht hd hf
    rw [ht, hd, hf]
  · exact List.sorted_insertionSort pairTagLe _
  · cases h : dividendsForMonth db user_pk year month with
    | nil =>
        rw [gms_of_nil h]
        simp only [respFiis]
        exact List.sorted_nil
    | cons p rest =>
        obtain ⟨e, he⟩ := gms_of_cons h
        rw [he]
        simp only [respFiis]
        exact List.sorted_nil

/-- Concrete scenario of the spec: instrument ABCD11 with `cut_day = 15`. -/
def scenarioFii : Fii := ⟨1, "ABCD11", "ABCD Fund", some 15, none⟩

/-- Concrete scenario: a buy of 100 units on 2024-01-10. -/
def scenarioBuy : FiiTransaction := ⟨1, 1, "buy", ⟨2024, 1, 10⟩, 100, none⟩

/-- Concrete scenario: a dividend paid 2024-01-25 at 0.50 per unit
(`Numeric(10, 4)` reads back as `Decimal('0.5000')`). -/
def scenarioDividend : Dividend :=
  ⟨1, 1, 1, ⟨2024, 1, 25⟩, none, none, ⟨5000, -4⟩, none, some 1, some 1⟩

/-- Concrete scenario database. -/
def scenarioDb : DbState := ⟨[scenarioBuy], [scenarioDividend], [scenarioFii]⟩

/-- Witness for `c9_deterministic_ordering` at the concrete scenario. -/
theorem c9_deterministic_ordering_witness :
    get_monthly_summary scenarioDb 1 2024 1 = get_monthly_summary scenarioDb 1 2024 1 ∧
    List.Sorted pairTagLe (dividendsForMonth scenarioDb 1 2024 1) ∧
    List.Sorted (fun a b : FiiMonthlySummary => a.fii_tag ≤ b.fii_tag)
      (respFiis (get_monthly_summary scenarioDb 1 2024 1)) :=
  c9_deterministic_ordering scenarioDb scenarioDb 1 2024 1 rfl rfl rfl

/-- C1: on the spec's own scenario the eligibility pieces compute as the
claim says (cutoff 2024-01-15, 100 eligible units, line total 50.00), but
the monthly summary itself cannot return the one-bucket response: the
handler aborts with the `com_date` validation error, so the claimed
response shape is never produced for any month containing a dividend. -/
theorem c1_scenario_validation_error :
    calculate_cut_date ⟨2024, 1, 25⟩ 15 = some ⟨2024, 1, 15⟩ ∧
    calculate_units_held scenarioDb.transactions 1 1 ⟨2024, 1, 15⟩ = 100 ∧
    decMulInt scenarioDividend.amount_per_unit 100 = ⟨500000, -4⟩ ∧
    decValue ⟨500000, -4⟩ = 50 ∧
    get_monthly_summary scenarioDb 1 2024 1 =
      .error "ValidationError: com_date Field required" := by
  refine ⟨by decide, by decide, by decide, ?_, by rfl⟩
  show (500000 : ℚ) * (10 : ℚ) ^ (-4 : ℤ) = 50
  norm_num

theorem decValue_decAdd (x y : PyDec) :
    decValue (decAdd x y) = decValue x + decValue y := by
  have h10 : (10 : ℚ) ≠ 0 := by norm_num
  simp only [decAdd, decValue]
  push_cast
  rw [add_mul, mul_assoc, mul_assoc,
    ← zpow_natCast (10 : ℚ) (x.exp - min x.exp y.exp).toNat,
    ← zpow_natCast (10 : ℚ) (y.exp - min x.exp y.exp).toNat,
    ← zpow_add₀ h10, ← zpow_add₀ h10,
    Int.toNat_of_nonneg (by omega : (0 : ℤ) ≤ x.exp - min x.exp y.exp),
    Int.toNat_of_nonneg (by omega : (0 : ℤ) ≤ y.exp - min x.exp y.exp),
    sub_add_cancel, sub_add_cancel]

/-- C8 counterexample: for a dividend of `Decimal('0.0003')` per unit and a
single eligible unit — values the schema admits — the total the handler
computes is `Decimal('0.0003')`: it has four fractional digits and its
value is not expressible with two fractional digits at all, refuting the
claim that every total carries two fractional digits. -/
theorem c8_counterexample :
    decMulInt ⟨3, -4⟩ 1 = ⟨3, -4⟩ ∧
    decAdd decZero (decMulInt ⟨3, -4⟩ 1) = ⟨3, -4⟩ ∧
    decValue ⟨3, -4⟩ = 3 / 10000 ∧
    ¬ ∃ k : Int, decValue ⟨3, -4⟩ = (k : ℚ) / 100 := by
  have hval : decValue ⟨3, -4⟩ = 3 / 10000 := by
    show (3 : ℚ) * (10 : ℚ) ^ (-4 : ℤ) = 3 / 10000
    norm_num
  refine ⟨by decide, by decide, hval, ?_⟩
  rintro ⟨k, hk⟩
  rw [hval] at hk
  have h2 : (3 : ℚ) * 100 = (k : ℚ) * 10000 := by
    field_simp at hk
    linarith
  have h3 : (300 : ℤ) = k * 10000 := by exact_mod_cast h2
  omega

/-- C8 as amended: the summary's monetary arithmetic is exact decimal
arithmetic (the embedded operations are value-exact), `amount_per_unit`
carries four fractional digits, and every computed total inherits that
four-digit scale — per-dividend line totals, bucket accumulations from
`Decimal('0')` and sums of bucket totals all have exponent `-4`; nothing
rounds them to two fractional digits. -/
theorem c8_decimal_scale_amended (a b x y : PyDec) (n : Int)
    (ha : a.exp = -4) (hb : b.exp = -4) :
    (decMulInt a n).exp = -4 ∧
    (decAdd decZero (decMulInt a n)).exp = -4 ∧
    (decAdd b (decMulInt a n)).exp = -4 ∧
    decValue (decMulInt a n) = decValue a * (n : ℚ) ∧
    decValue (decAdd x y) = decValue x + decValue y := by
  refine ⟨?_, ?_, ?_, ?_, decValue_decAdd x y⟩
  · simp [decMulInt, ha]
  · simp [decAdd, decMulInt, decZero, ha]
  · simp [decAdd, decMulInt, ha, hb]
  · simp only [decValue, decMulInt]
    push_cast
    ring

/-- Witness for `c8_decimal_scale_amended` at the spec scenario's numbers. -/
theorem c8_decimal_scale_amended_witness :
    (decMulInt ⟨5000, -4⟩ 100).exp = -4 ∧
    (decAdd decZero (decMulInt ⟨5000, -4⟩ 100)).exp = -4 ∧
    (decAdd ⟨3, -4⟩ (decMulInt ⟨5000, -4⟩ 100)).exp = -4 ∧
    decValue (decMulInt ⟨5000, -4⟩ 100) = decValue ⟨5000, -4⟩ * ((100 : Int) : ℚ) ∧
    decValue (decAdd ⟨1, 0⟩ ⟨2, -2⟩) = decValue ⟨1, 0⟩ + decValue ⟨2, -2⟩ :=
  c8_decimal_scale_amended ⟨5000, -4⟩ ⟨3, -4⟩ ⟨1, 0⟩ ⟨2, -2⟩ 100 rfl rfl

theorem exceptBind_ok {ε α β : Type} (a : α) (f : α → Except ε β) :
    (Except.ok a >>= f) = f a := rfl

theorem exceptBind_err {ε α β : Type} (e : ε) (f : α → Except ε β) :
    ((Except.error e : Except ε α) >>= f) = .error e := rfl

theorem revalidate_units_irrelevant (p : DividendUpdate) (u1 u2 : Option Int) :
    dividendUpdate_revalidate p u1 = dividendUpdate_revalidate p u2 := rfl

theorem orError_some {α : Type} (a : α) (msg : String) :
    orError (some a) msg = .ok a := rfl

theorem orError_none {α : Type} (msg : String) :
    orError (none : Option α) msg = .error msg := rfl

theorem flushNotNull_some (pd : PyDate) (am : PyDec) :
    flushNotNull (some pd) (some am) = .ok (pd, am) := rfl

theorem flushNotNull_none_left (am : Option PyDec) :
    flushNotNull none am = .error "IntegrityError: null value in non-nullable column" := rfl

theorem flushNotNull_none_right (pd : PyDate) :
    flushNotNull (some pd) none =
      .error "IntegrityError: null value in non-nullable column" := rfl

theorem revalidate_ok_eq {p q : DividendUpdate} {u : Option Int}
    (h : dividendUpdate_revalidate p u = .ok q) : q = p := by
  simp only [dividendUpdate_revalidate] at h
  split_ifs at h
  all_goals cases h
  all_goals rfl

theorem unitsEntry_status (tx tx2 : List FiiTransaction) (u : Int) (fii : Fii)
    (pd : Option PyDate) (fpk : Int) :
    (∃ e, unitsEntryFor tx u fii pd fpk = .error e ∧
      unitsEntryFor tx2 u fii pd fpk = .error e) ∨
    (∃ v v2, unitsEntryFor tx u fii pd fpk = .ok v ∧
      unitsEntryFor tx2 u fii pd fpk = .ok v2) := by
  cases hcd : fii.cut_day with
  | none =>
      exact .inr ⟨none, none, by simp [unitsEntryFor, hcd], by simp [unitsEntryFor, hcd]⟩
  | some cd =>
    by_cases h0 : cd = 0
    · subst h0
      exact .inr ⟨none, none, by simp [unitsEntryFor, hcd], by simp [unitsEntryFor, hcd]⟩
    · rcases pd with _ | pd
      · exact .inl ⟨"TypeError: payment_date is None",
          by simp [unitsEntryFor, hcd, h0], by simp [unitsEntryFor, hcd, h0]⟩
      · rcases hc : calculate_cut_date pd cd with _ | cut
        · exact .inl ⟨"ValueError: date out of range",
            by simp [unitsEntryFor, hcd, h0, hc], by simp [unitsEntryFor, hcd, h0, hc]⟩
        · exact .inr ⟨some (calculate_units_held tx u fpk cut),
            some (calculate_units_held tx2 u fpk cut),
            by simp [unitsEntryFor, hcd, h0, hc], by simp [unitsEntryFor, hcd, h0, hc]⟩

/-- C10: an `update_dividend` call can only change `fii_pk`,
`payment_date`, `amount_per_unit` and `com_date` (each taken from the
payload when set, kept otherwise) plus the audit column `updated_by_pk`;
every other stored field is preserved, and the persisted outcome is
completely independent of the transaction history — the `units_held` figure
the handler recomputes and pushes into the update dict matches no declared
`DividendUpdate` field and is silently dropped, never persisted. -/
theorem c10_update_frame (db : DbState) (txs2 : List FiiTransaction)
    (u pk : Int) (p : DividendUpdate) (rec : Dividend)
    (h : update_dividend db u pk p = .ok rec) :
    update_dividend ⟨txs2, db.dividends, db.fiis⟩ u pk p = .ok rec ∧
    ∃ old, db.dividends.find? (fun d =>
        d.pk == pk && d.user_pk == u && d.rm_timestamp.isNone) = some old ∧
      rec.pk = old.pk ∧ rec.user_pk = old.user_pk ∧
      rec.rm_timestamp = old.rm_timestamp ∧
      rec.reference_date = old.reference_date ∧
      rec.created_by_pk = old.created_by_pk ∧
      rec.updated_by_pk = some u ∧
      some rec.fii_pk = mergeField p.fii_pk old.fii_pk ∧
      some rec.payment_date = mergeField p.payment_date old.payment_date ∧
      some rec.amount_per_unit = mergeField p.amount_per_unit old.amount_per_unit ∧
      rec.com_date = mergeNullable p.com_date old.com_date := by
  simp only [update_dividend] at h ⊢
  cases hfind : db.dividends.find? (fun d =>
      d.pk == pk && d.user_pk == u && d.rm_timestamp.isNone) with
  | none => simp only [hfind, orError_none, exceptBind_err] at h; cases h
  | some dividend =>
    simp only [hfind, orError_some, exceptBind_ok] at h
    simp only [orError_some, exceptBind_ok]
    cases hfpk : mergeField p.fii_pk dividend.fii_pk with
    | none => simp only [hfpk, orError_none, exceptBind_err] at h; cases h
    | some fpk =>
      simp only [hfpk, orError_some, exceptBind_ok] at h
      simp only [orError_some, exceptBind_ok]
      cases hfii : db.fiis.find? (fun f => f.pk == fpk && f.rm_timestamp.isNone) with
      | none => simp only [hfii, orError_none, exceptBind_err] at h; cases h
      | some fii =>
        simp only [hfii, orError_some, exceptBind_ok] at h
        simp only [orError_some, exceptBind_ok]
        rcases unitsEntry_status db.transactions txs2 u fii
            (mergeField p.payment_date dividend.payment_date) fpk with
          ⟨e, he1, he2⟩ | ⟨v, v2, hv1, hv2⟩
        · simp only [he1, exceptBind_err] at h; cases h
        · simp only [hv1, exceptBind_ok] at h
          simp only [hv2, exceptBind_ok, revalidate_units_irrelevant p v2 v]
          rcases hrv : dividendUpdate_revalidate p v with e | q
          · simp only [hrv, exceptBind_err] at h; cases h
          · have hq : p = q := (revalidate_ok_eq hrv).symm
            subst hq
            simp only [hrv, exceptBind_ok] at h ⊢
            cases hpd : mergeField p.payment_date dividend.payment_date with
            | none => simp only [hpd, flushNotNull_none_left, exceptBind_err] at h; cases h
            | some pd2 =>
              simp only [hpd] at h ⊢
              cases ham : mergeField p.amount_per_unit dividend.amount_per_unit with
              | none =>
                  simp only [ham, flushNotNull_none_right, exceptBind_err] at h
                  cases h
              | some am2 =>
                simp only [ham, flushNotNull_some, exceptBind_ok] at h
                simp only [flushNotNull_some, exceptBind_ok]
                cases h
                refine ⟨rfl, dividend, rfl, rfl, rfl, rfl, rfl, rfl, rfl,
                  ?_, ?_, ?_, rfl⟩
                · exact hfpk.symm
                · exact hpd.symm
                · exact ham.symm

/-- Witness for `c10_update_frame`: a concrete update that sets only the
amount, with the transaction table swapped for the empty one. -/
theorem c10_update_frame_witness :
    update_dividend ⟨[], [scenarioDividend], [scenarioFii]⟩ 1 1
        ⟨none, none, some (some ⟨7000, -4⟩), none⟩ =
      .ok ⟨1, 1, 1, ⟨2024, 1, 25⟩, none, none, ⟨7000, -4⟩, none, some 1, some 1⟩ ∧
    ∃ old, scenarioDb.dividends.find? (fun d =>
        d.pk == 1 && d.user_pk == 1 && d.rm_timestamp.isNone) = some old ∧
      (⟨1, 1, 1, ⟨2024, 1, 25⟩, none, none, ⟨7000, -4⟩, none, some 1, some 1⟩ :
          Dividend).pk = old.pk ∧
      (⟨1, 1, 1, ⟨2024, 1, 25⟩, none, none, ⟨7000, -4⟩, none, some 1, some 1⟩ :
          Dividend).user_pk = old.user_pk ∧
      (⟨1, 1, 1, ⟨2024, 1, 25⟩, none, none, ⟨7000, -4⟩, none, some 1, some 1⟩ :
          Dividend).rm_timestamp = old.rm_timestamp ∧
      (⟨1, 1, 1, ⟨2024, 1, 25⟩, none, none, ⟨7000, -4⟩, none, some 1, some 1⟩ :
          Dividend).reference_date = old.reference_date ∧
      (⟨1, 1, 1, ⟨2024, 1, 25⟩, none, none, ⟨7000, -4⟩, none, some 1, some 1⟩ :
          Dividend).created_by_pk = old.created_by_pk ∧
      (⟨1, 1, 1, ⟨2024, 1, 25⟩, none, none, ⟨7000, -4⟩, none, some 1, some 1⟩ :
          Dividend).updated_by_pk = some 1 ∧
      some (⟨1, 1, 1, ⟨2024, 1, 25⟩, none, none, ⟨7000, -4⟩, none, some 1, some 1⟩ :
          Dividend).fii_pk = mergeField none old.fii_pk ∧
      some (⟨1, 1, 1, ⟨2024, 1, 25⟩, none, none, ⟨7000, -4⟩, none, some 1, some 1⟩ :
          Dividend).payment_date = mergeField none old.payment_date ∧
      some (⟨1, 1, 1, ⟨2024, 1, 25⟩, none, none, ⟨7000, -4⟩, none, some 1, some 1⟩ :
          Dividend).amount_per_unit = mergeField (some (some ⟨7000, -4⟩)) old.amount_per_unit ∧
      (⟨1, 1, 1, ⟨2024, 1, 25⟩, none, none, ⟨7000, -4⟩, none, some 1, some 1⟩ :
          Dividend).com_date = mergeNullable none old.com_date :=
  c10_update_frame scenarioDb [] 1 1
    ⟨none, none, some (some ⟨7000, -4⟩), none⟩
    ⟨1, 1, 1, ⟨2024, 1, 25⟩, none, none, ⟨7000, -4⟩, none, some 1, some 1⟩
    (by rfl)

end FiiApp
